import Mathlib

/-!
Shallow embedding of the text-parsing and result-aggregation core of the
`diagnostico_de_rede` repository (src/src/parsers/ping_parser.py,
src/src/parsers/mtr_parser.py, src/src/parsers/traceroute_parser.py,
src/src/models/network_test.py, src/src/models/test_results.py).

Python strings are `List Char` / `String`; floats coming from the
digits-and-dots regex groups are exact `ℚ` values, while the one place a
general Python `float()` runs on arbitrary text (the MTR fallback loss
loop) is modelled by `PyFloat`, which also carries the non-finite values
`nan` and `±inf` that `float()` accepts; Python exceptions are routed
through `Except String`, and the wall-clock reading `datetime.now()` taken
by each parser is passed in explicitly as a `now : ℕ` parameter that fills
the `timestamp` field.
-/

set_option maxRecDepth 4000

/-- Python whitespace (ASCII part), as used by `str.split()` / `str.strip()`
and by the regex class `\s`. -/
def isPySpace (c : Char) : Bool :=
  c = ' ' || c = '\t' || c = '\n' || c = '\r' || c = '\x0b' || c = '\x0c'

/-- ASCII decimal digit, the regex class `\d`. -/
def isDigitC (c : Char) : Bool :=
  '0' ≤ c && c ≤ '9'

/-- The regex character class `[\d.]`. -/
def isDigitDotC (c : Char) : Bool :=
  isDigitC c || c = '.'

/-- Python `str.strip()`. -/
def pyStrip (cs : List Char) : List Char :=
  ((cs.dropWhile isPySpace).reverse.dropWhile isPySpace).reverse

/-- Python `str.split('\n')` (keeps empty pieces). -/
def splitLinesAux : List Char → List Char → List (List Char)
  | [], acc => [acc.reverse]
  | c :: cs, acc =>
    if c = '\n' then acc.reverse :: splitLinesAux cs [] else splitLinesAux cs (c :: acc)

/-- Python `str.split('\n')`. -/
def splitLines (cs : List Char) : List (List Char) :=
  splitLinesAux cs []

/-- Python `str.split()` with no argument: split on whitespace runs,
dropping empty fields.  Structured on an explicit fuel (always at least the
list length plus one) so that it is structural recursion. -/
def pySplitWsFuel : ℕ → List Char → List (List Char)
  | 0, _ => []
  | _ + 1, [] => []
  | fuel + 1, c :: cs =>
    if isPySpace c then pySplitWsFuel fuel cs
    else
      (c :: cs).takeWhile (fun d => !isPySpace d) ::
        pySplitWsFuel fuel ((c :: cs).dropWhile (fun d => !isPySpace d))

/-- Python `str.split()`. -/
def pySplitWs (cs : List Char) : List (List Char) :=
  pySplitWsFuel (cs.length + 1) cs

/-- Python `" ".join(parts)`. -/
def joinSpace : List (List Char) → List Char
  | [] => []
  | [w] => w
  | w :: ws => w ++ ' ' :: joinSpace ws

/-- Python `str.replace(pat, "")` for a nonempty `pat`: removes every
occurrence, scanning left to right.  Fuel-structured (fuel at least the
list length suffices because every step consumes at least one character). -/
def removeAllFuel (pat : List Char) : ℕ → List Char → List Char
  | 0, cs => cs
  | _ + 1, [] => []
  | fuel + 1, c :: cs =>
    if pat.isPrefixOf (c :: cs) then removeAllFuel pat fuel ((c :: cs).drop pat.length)
    else c :: removeAllFuel pat fuel cs

/-- Python `str.replace(pat, "")` for a nonempty `pat`. -/
def removeAll (pat cs : List Char) : List Char :=
  removeAllFuel pat cs.length cs

/-- Numeric value of a run of decimal digits (Python `int()` on a `\d+`
match). -/
def digitsToNat (cs : List Char) : ℕ :=
  cs.foldl (fun n c => 10 * n + (c.toNat - '0'.toNat)) 0

/-- Python `float()` applied to a token drawn from the regex class `[\d.]+`
(only digits and dots): defined exactly when the token has at least one
digit and at most one dot, in which case the value is the decimal it
spells.  `float("1.2.3")` and `float(".")` raise `ValueError`, mirrored by
`none`. -/
def floatOfDigitDot? (cs : List Char) : Option ℚ :=
  if cs.count '.' ≤ 1 && cs.any isDigitC then
    let ip := cs.takeWhile isDigitC
    let rest := cs.dropWhile isDigitC
    match rest with
    | [] => some (digitsToNat ip)
    | _ :: f => some (mkRat (digitsToNat (ip ++ f)) (10 ^ f.length))
  else none

/-- Python float values as produced by `float()` on command-output text:
an exact rational for finite literals (binary64 rounding/overflow is not
modelled), plus the non-finite values that `float("nan")`, `float("inf")`
and `float("-inf")` produce. -/
inductive PyFloat
  | finite (q : ℚ)
  | nan
  | inf
  | ninf
deriving DecidableEq, Repr

/-- Whether the value is the IEEE nan. -/
def PyFloat.isNan : PyFloat → Bool
  | PyFloat.nan => true
  | _ => false

/-- Python `<` on floats: every comparison involving nan is False. -/
def PyFloat.lt : PyFloat → PyFloat → Bool
  | PyFloat.nan, _ => false
  | _, PyFloat.nan => false
  | PyFloat.ninf, PyFloat.ninf => false
  | PyFloat.ninf, _ => true
  | _, PyFloat.ninf => false
  | PyFloat.inf, _ => false
  | PyFloat.finite _, PyFloat.inf => true
  | PyFloat.finite a, PyFloat.finite b => a < b

/-- Python `<=` on floats: every comparison involving nan is False. -/
def PyFloat.le : PyFloat → PyFloat → Bool
  | PyFloat.nan, _ => false
  | _, PyFloat.nan => false
  | PyFloat.ninf, _ => true
  | _, PyFloat.ninf => false
  | _, PyFloat.inf => true
  | PyFloat.inf, _ => false
  | PyFloat.finite a, PyFloat.finite b => a ≤ b

/-- The accumulation step of CPython `max`: keep the current value unless
the next one compares strictly greater (so a leading nan is kept, a later
nan is dropped). -/
def PyFloat.pymax (a b : PyFloat) : PyFloat :=
  if PyFloat.lt a b then b else a

/-- Python float addition: nan propagates, opposite infinities give nan,
finite values add exactly. -/
def PyFloat.add : PyFloat → PyFloat → PyFloat
  | PyFloat.nan, _ => PyFloat.nan
  | _, PyFloat.nan => PyFloat.nan
  | PyFloat.inf, PyFloat.ninf => PyFloat.nan
  | PyFloat.ninf, PyFloat.inf => PyFloat.nan
  | PyFloat.inf, _ => PyFloat.inf
  | _, PyFloat.inf => PyFloat.inf
  | PyFloat.ninf, _ => PyFloat.ninf
  | _, PyFloat.ninf => PyFloat.ninf
  | PyFloat.finite a, PyFloat.finite b => PyFloat.finite (a + b)

/-- Python `sum` over floats (starting from the integer 0). -/
def pySum (l : List PyFloat) : PyFloat :=
  l.foldl PyFloat.add (PyFloat.finite 0)

/-- Division of a float by an integer count (the mean in the MTR
aggregation; the count is positive at every call site). -/
def PyFloat.divNat (x : PyFloat) (n : ℕ) : PyFloat :=
  match x with
  | PyFloat.finite q => PyFloat.finite (q / (n : ℚ))
  | PyFloat.nan => PyFloat.nan
  | PyFloat.inf => PyFloat.inf
  | PyFloat.ninf => PyFloat.ninf

/-- Continuation of a Python `digitpart` (`digit (["_"] digit)*`): value
and digit count so far, consuming greedily; a trailing or doubled
underscore is left unconsumed (the caller then rejects the literal, as
CPython does for `1__0` or `1_`). -/
def digitPartCont (val nd : ℕ) : List Char → ℕ × ℕ × List Char
  | [] => (val, nd, [])
  | c :: cs =>
    if isDigitC c then digitPartCont (10 * val + (c.toNat - '0'.toNat)) (nd + 1) cs
    else if c = '_' then
      match cs with
      | d :: cs2 =>
        if isDigitC d then digitPartCont (10 * val + (d.toNat - '0'.toNat)) (nd + 1) cs2
        else (val, nd, c :: cs)
      | [] => (val, nd, c :: cs)
    else (val, nd, c :: cs)

/-- Python `digitpart`: at least one digit, single underscores allowed
between digits; returns value, digit count and remainder. -/
def digitPart? : List Char → Option (ℕ × ℕ × List Char)
  | [] => none
  | c :: cs =>
    if isDigitC c then some (digitPartCont (c.toNat - '0'.toNat) 1 cs) else none

/-- Exponent suffix `[eE][+-]?digitpart` of a Python float literal, or
absent; the whole remainder must be consumed. -/
def parseExpPart? : List Char → Option ℤ
  | [] => some 0
  | c :: rest =>
    if c = 'e' || c = 'E' then
      match rest with
      | '+' :: ds =>
        match digitPart? ds with
        | some (v, _, r) => if r = [] then some (v : ℤ) else none
        | none => none
      | '-' :: ds =>
        match digitPart? ds with
        | some (v, _, r) => if r = [] then some (-(v : ℤ)) else none
        | none => none
      | ds =>
        match digitPart? ds with
        | some (v, _, r) => if r = [] then some (v : ℤ) else none
        | none => none
    else none

/-- The finite-literal part of Python `float()` after the optional sign:
`digitpart ["." [digitpart]] [exp]` or `"." digitpart [exp]`, with the
exact rational value built as a single `mkRat`. -/
def parsePyNumber? (cs : List Char) : Option ℚ :=
  let finish : ℕ → ℕ → List Char → Option ℚ := fun mant fracLen r =>
    match parseExpPart? r with
    | some e =>
      if 0 ≤ e then some (mkRat (mant * 10 ^ e.toNat) (10 ^ fracLen))
      else some (mkRat mant (10 ^ (fracLen + (-e).toNat)))
    | none => none
  match digitPart? cs with
  | some (ival, _, r1) =>
    match r1 with
    | '.' :: r2 =>
      match digitPart? r2 with
      | some (fval, fnd, r3) => finish (ival * 10 ^ fnd + fval) fnd r3
      | none => finish ival 0 r2
    | _ => finish ival 0 r1
  | none =>
    match cs with
    | '.' :: r2 =>
      match digitPart? r2 with
      | some (fval, fnd, r3) => finish fval fnd r3
      | none => none
    | _ => none

/-- Python `float()` on an arbitrary token: strip whitespace, optional
sign, then either the special names `nan` / `inf` / `infinity`
(case-insensitive) or a finite decimal/scientific literal with optional
underscore digit separators. -/
def pyFloat? (cs : List Char) : Option PyFloat :=
  let core : Bool → List Char → Option PyFloat := fun neg r =>
    let low := r.map Char.toLower
    if low = "nan".data then some PyFloat.nan
    else if low = "inf".data || low = "infinity".data then
      some (if neg then PyFloat.ninf else PyFloat.inf)
    else (parsePyNumber? r).map fun q => PyFloat.finite (if neg then -q else q)
  match pyStrip cs with
  | '+' :: r => core false r
  | '-' :: r => core true r
  | r => core false r

/-- Python substring containment `pat in s`. -/
def isSubstr (pat : List Char) : List Char → Bool
  | [] => pat.isEmpty
  | c :: cs => pat.isPrefixOf (c :: cs) || isSubstr pat cs

/-- Match exactly one expected character and return the remainder. -/
def expectChar (c : Char) : List Char → Option (List Char)
  | d :: rest => if d = c then some rest else none
  | [] => none

/-- Greedy `([\d.]+)` group: nonempty maximal run of digits/dots plus the
remainder.  (Greedy is exact here: in every pattern below the run is
followed by a character outside the class, so no backtracking into the run
can succeed.) -/
def ddGroup (cs : List Char) : Option (List Char × List Char) :=
  let g := cs.takeWhile isDigitDotC
  if g.isEmpty then none else some (g, cs.dropWhile isDigitDotC)

/-- Greedy `(\d+)` group: nonempty maximal digit run plus the remainder. -/
def digGroup (cs : List Char) : Option (List Char × List Char) :=
  let g := cs.takeWhile isDigitC
  if g.isEmpty then none else some (g, cs.dropWhile isDigitC)

/-- Greedy `\s+`: requires at least one whitespace character and consumes
the maximal run (exact for the same follower-disjointness reason). -/
def wsGroup (cs : List Char) : Option (List Char) :=
  if (cs.takeWhile isPySpace).isEmpty then none else some (cs.dropWhile isPySpace)

/-- Status enum of src/src/models/network_test.py. -/
inductive TestStatus
  | success
  | warning
  | failed
deriving DecidableEq, Repr

/-- Dataclass `PingResult` (timestamp abstracted to a clock reading). -/
structure PingResult where
  status : TestStatus
  target : String
  packets_sent : ℕ
  packets_received : ℕ
  packet_loss_percent : ℚ
  min_time : ℚ
  avg_time : ℚ
  max_time : ℚ
  mdev_time : ℚ
  timestamp : ℕ
  raw_output : String
  error_message : Option String := none
deriving DecidableEq, Repr

/-- Dataclass `TracerouteHop`. -/
structure TracerouteHop where
  hop_number : ℕ
  ip_address : String
  response_time : ℚ
  is_timeout : Bool := false
deriving DecidableEq, Repr

/-- Dataclass `TracerouteResult`. -/
structure TracerouteResult where
  status : TestStatus
  target : String
  hops : List TracerouteHop
  total_hops : ℕ
  timestamp : ℕ
  raw_output : String
  error_message : Option String := none
deriving DecidableEq, Repr

/-- Dataclass `MTRHop` (`loss_percent` can be any Python float: the
fallback path stores the unchecked result of `float()` there). -/
structure MTRHop where
  hop_number : ℕ
  hostname : String
  ip_address : String
  loss_percent : PyFloat
  sent_packets : ℕ
  last_time : ℚ
  avg_time : ℚ
  best_time : ℚ
  worst_time : ℚ
  std_dev : ℚ
  asn : Option String := none
deriving DecidableEq, Repr

/-- Dataclass `MTRResult`. -/
structure MTRResult where
  status : TestStatus
  target : String
  hops : List MTRHop
  total_hops : ℕ
  total_loss_percent : PyFloat
  avg_latency : ℚ
  timestamp : ℕ
  raw_output : String
  error_message : Option String := none
deriving DecidableEq, Repr

/-- Dataclass `NetworkTest` (the opaque speed-test slot is omitted: nothing
in the modelled core reads it). -/
structure NetworkTest where
  target : String
  timestamp : ℕ
  ping_result : Option PingResult := none
  traceroute_result : Option TracerouteResult := none
  mtr_result : Option MTRResult := none
deriving DecidableEq

/-- Dataclass `TestSummary` of src/src/models/test_results.py. -/
structure TestSummary where
  total_tests : ℕ
  successful_tests : ℕ
  failed_tests : ℕ
  warning_tests : ℕ
  average_latency : ℚ
  total_packet_loss : ℚ
  execution_time : ℚ
deriving DecidableEq

/-- Dataclass `TestResults` (only the fields the summary logic reads). -/
structure TestResults where
  timestamp : ℕ
  tests : List NetworkTest
deriving DecidableEq

deriving instance DecidableEq for Except

/-! ## Ping parser (src/src/parsers/ping_parser.py) -/

/-- Literal `% packet loss` tail of the loss group in both statistics
patterns. -/
def lossLit : List Char := "% packet loss".data

/-- Attempt of `(\d+\.?\d*)% packet loss` at exactly this position.  The
digit runs are greedy; if the optional dot is taken but no `%` follows the
fractional digits, no backtracking alternative can succeed (shorter digit
runs end at a digit, and dropping the dot leaves `%` to match against
`.`), so the attempt fails. -/
def matchLossAt (cs : List Char) : Option ℚ :=
  let ds := cs.takeWhile isDigitC
  let r := cs.dropWhile isDigitC
  if ds.isEmpty then none
  else
    match r with
    | '.' :: r2 =>
      let fs := r2.takeWhile isDigitC
      let r3 := r2.dropWhile isDigitC
      if lossLit.isPrefixOf r3 then
        some (mkRat (digitsToNat (ds ++ fs)) (10 ^ fs.length))
      else none
    | _ => if lossLit.isPrefixOf r then some (digitsToNat ds) else none

/-- Lazy `.*?` before the loss group: the group starts at the earliest
position reachable without crossing a newline (regex `.` never matches
`\n`). -/
def lazyScanLoss : List Char → Option ℚ
  | [] => none
  | c :: cs =>
    match matchLossAt (c :: cs) with
    | some q => some q
    | none => if c = '\n' then none else lazyScanLoss cs

/-- Attempt of the full statistics pattern
`(\d+)<lit1>(\d+)<lit2>.*?(\d+\.?\d*)% packet loss` at this position. -/
def statsMatchAt (lit1 lit2 cs : List Char) : Option (ℕ × ℕ × ℚ) := do
  let (d1, r1) ← digGroup cs
  if lit1.isPrefixOf r1 then
    let (d2, r3) ← digGroup (r1.drop lit1.length)
    if lit2.isPrefixOf r3 then
      let q ← lazyScanLoss (r3.drop lit2.length)
      some (digitsToNat d1, digitsToNat d2, q)
    else none
  else none

/-- `re.search` of a statistics pattern: leftmost starting position wins. -/
def statsSearch (lit1 lit2 : List Char) : List Char → Option (ℕ × ℕ × ℚ)
  | [] => none
  | c :: cs =>
    match statsMatchAt lit1 lit2 (c :: cs) with
    | some v => some v
    | none => statsSearch lit1 lit2 cs

/-- Portuguese statistics pattern pieces:
`(\d+) pacotes transmitidos, (\d+) recebidos.*?(\d+\.?\d*)% packet loss`. -/
def ptLit1 : List Char := " pacotes transmitidos, ".data

/-- Second literal of the Portuguese statistics pattern. -/
def ptLit2 : List Char := " recebidos".data

/-- English statistics pattern pieces:
`(\d+) packets transmitted, (\d+) received.*?(\d+\.?\d*)% packet loss`. -/
def enLit1 : List Char := " packets transmitted, ".data

/-- Second literal of the English statistics pattern. -/
def enLit2 : List Char := " received".data

/-- Literal head of the RTT pattern
`rtt min/avg/max/mdev = ([\d.]+)/([\d.]+)/([\d.]+)/([\d.]+) ms`. -/
def rttLit : List Char := "rtt min/avg/max/mdev = ".data

/-- Attempt of the RTT pattern at this position, returning the four raw
groups (their `float()` conversion can still fail and is done by the
caller, as in the source). -/
def rttMatchAt (cs : List Char) : Option (List Char × List Char × List Char × List Char) := do
  if rttLit.isPrefixOf cs then
    let (g1, r1) ← ddGroup (cs.drop rttLit.length)
    let r1 ← expectChar '/' r1
    let (g2, r2) ← ddGroup r1
    let r2 ← expectChar '/' r2
    let (g3, r3) ← ddGroup r2
    let r3 ← expectChar '/' r3
    let (g4, r4) ← ddGroup r3
    if (" ms".data).isPrefixOf r4 then some (g1, g2, g3, g4) else none
  else none

/-- `re.search` of the RTT pattern. -/
def rttSearch : List Char → Option (List Char × List Char × List Char × List Char)
  | [] => none
  | c :: cs =>
    match rttMatchAt (c :: cs) with
    | some v => some v
    | none => rttSearch cs

/-- Message text of the `ValueError` that Python `float()` raises on a bad
literal. -/
def floatErrMsg (tok : List Char) : String :=
  "could not convert string to float: " ++ String.mk tok

/-- `float()` on a `[\d.]+` group, raising (into `Except`) on an invalid
literal. -/
def floatE (tok : List Char) : Except String ℚ :=
  match floatOfDigitDot? tok with
  | some q => Except.ok q
  | none => Except.error (floatErrMsg tok)

/-- Fields of a ping result as collected by the body of
`PingParser.parse` before the status decision. -/
structure PingCore where
  packets_sent : ℕ
  packets_received : ℕ
  packet_loss_percent : ℚ
  min_time : ℚ
  avg_time : ℚ
  max_time : ℚ
  mdev_time : ℚ
deriving DecidableEq, Repr

/-- Statistics extraction of `PingParser.parse`: Portuguese pattern
first, then the English one, defaults 0/0/0 when neither matches. -/
def pingStatsOf (output : List Char) : ℕ × ℕ × ℚ :=
  match statsSearch ptLit1 ptLit2 output with
  | some v => v
  | none => (statsSearch enLit1 enLit2 output).getD (0, 0, 0)

/-- RTT extraction of `PingParser.parse`: all four fields stay 0 when the
pattern is absent; when it matches, the four `float()` conversions (in
source order) are the only operations of the whole parse body that can
raise. -/
def pingRttOf (output : List Char) : Except String (ℚ × ℚ × ℚ × ℚ) :=
  match rttSearch output with
  | none => Except.ok (0, 0, 0, 0)
  | some (g1, g2, g3, g4) => do
    let mn ← floatE g1
    let av ← floatE g2
    let mx ← floatE g3
    let md ← floatE g4
    Except.ok (mn, av, mx, md)

/-- Body of `PingParser.parse` up to (and excluding) the status decision. -/
def pingParseBody (output : List Char) : Except String PingCore := do
  let (mn, av, mx, md) ← pingRttOf output
  Except.ok
    ⟨(pingStatsOf output).1, (pingStatsOf output).2.1, (pingStatsOf output).2.2,
      mn, av, mx, md⟩

/-- Status decision of `PingParser.parse` (lines 64-76 of the source):
first match wins. -/
def pingStatusOf (ps : ℕ) (avg loss : ℚ) : TestStatus :=
  if ps = 0 ∧ avg = 0 then TestStatus.failed
  else if loss = 100 then TestStatus.failed
  else if loss > 50 then TestStatus.warning
  else TestStatus.success

/-- `PingParser.parse`: the `try` body, with the `except Exception` handler
turning any raised error into the forced Failed result. -/
def PingParser.parse (output target : String) (now : ℕ) : PingResult :=
  match pingParseBody output.data with
  | Except.ok c =>
    { status := pingStatusOf c.packets_sent c.avg_time c.packet_loss_percent
      target := target
      packets_sent := c.packets_sent
      packets_received := c.packets_received
      packet_loss_percent := c.packet_loss_percent
      min_time := c.min_time
      avg_time := c.avg_time
      max_time := c.max_time
      mdev_time := c.mdev_time
      timestamp := now
      raw_output := output }
  | Except.error e =>
    { status := TestStatus.failed
      target := target
      packets_sent := 0
      packets_received := 0
      packet_loss_percent := 100
      min_time := 0
      avg_time := 0
      max_time := 0
      mdev_time := 0
      timestamp := now
      raw_output := output
      error_message := some e }

/-! ## MTR parser (src/src/parsers/mtr_parser.py) -/

/-- Raw (unconverted) text of the seven trailing numeric groups of the MTR
hop pattern, in source order: loss%, sent, last, avg, best, worst, stdev. -/
structure MTRRawTail where
  loss : List Char
  snt : List Char
  lastT : List Char
  avgT : List Char
  bestT : List Char
  wrstT : List Char
  stdevT : List Char
deriving DecidableEq, Repr

/-- Tail of the MTR hop pattern after the host group:
`\s+([\d.]+)%\s+(\d+)\s+([\d.]+)\s+([\d.]+)\s+([\d.]+)\s+([\d.]+)\s+([\d.]+)`.
Every quantifier here is exact without backtracking because each greedy
run is followed by a character outside its class. -/
def mtrTailMatch (cs : List Char) : Option MTRRawTail := do
  let r ← wsGroup cs
  let (loss, r) ← ddGroup r
  let r ← expectChar '%' r
  let r ← wsGroup r
  let (snt, r) ← digGroup r
  let r ← wsGroup r
  let (lastT, r) ← ddGroup r
  let r ← wsGroup r
  let (avgT, r) ← ddGroup r
  let r ← wsGroup r
  let (bestT, r) ← ddGroup r
  let r ← wsGroup r
  let (wrstT, r) ← ddGroup r
  let r ← wsGroup r
  let (stdevT, _) ← ddGroup r
  some ⟨loss, snt, lastT, avgT, bestT, wrstT, stdevT⟩

/-- Lazy host group `(.+?)` followed by the tail: shortest extension
first, never crossing a newline (regex `.`). -/
def mtrLazyHost (acc : List Char) (rest : List Char) : Option (List Char × MTRRawTail) :=
  match mtrTailMatch rest with
  | some t => some (acc.reverse, t)
  | none =>
    match rest with
    | [] => none
    | c :: cs => if c = '\n' then none else mtrLazyHost (c :: acc) cs

/-- The host group must take at least one character before the tail. -/
def mtrHostAndTail : List Char → Option (List Char × MTRRawTail)
  | [] => none
  | c :: rest => if c = '\n' then none else mtrLazyHost [c] rest

/-- Backtracking over the `\s+` between `AS\d*` and the host group: the
greedy run tries its maximal length first and gives characters back (which
the lazy host group then absorbs) until a full match is found.  `rest` is
the text starting at that whitespace run, `k` the number of whitespace
characters still allowed to be consumed. -/
def mtrTryWs (rest : List Char) : ℕ → Option (List Char × MTRRawTail)
  | 0 => none
  | k + 1 =>
    match mtrHostAndTail (rest.drop (k + 1)) with
    | some v => some v
    | none => mtrTryWs rest k

/-- `re.match` of the anchored MTR hop pattern
`^\s*(\d+)\.\s+AS\d*\s+(.+?)\s+([\d.]+)%\s+(\d+)\s+([\d.]+)\s+([\d.]+)\s+([\d.]+)\s+([\d.]+)\s+([\d.]+)`,
returning hop number digits value, raw host group and raw numeric tail. -/
def mtrMainMatch (line : List Char) : Option (ℕ × List Char × MTRRawTail) := do
  let r := line.dropWhile isPySpace
  let (hd, r) ← digGroup r
  let r ← expectChar '.' r
  let r ← wsGroup r
  let r ← expectChar 'A' r
  let r ← expectChar 'S' r
  let r := r.dropWhile isDigitC
  let (host, tail) ← mtrTryWs r (r.takeWhile isPySpace).length
  some (digitsToNat hd, host, tail)

/-- `re.search` of `\(([\d.]+)\)` (IP between parentheses). -/
def ipParenSearch : List Char → Option (List Char)
  | [] => none
  | '(' :: cs =>
    let g := cs.takeWhile isDigitDotC
    if !g.isEmpty && (cs.dropWhile isDigitDotC).head? = some ')' then some g
    else ipParenSearch cs
  | _ :: cs => ipParenSearch cs

/-- Whether a token contains a dot or an opening parenthesis (the
"looks like a real hostname" test of `MTRParser._parse_hop_line`). -/
def hasDotOrParen (p : List Char) : Bool :=
  p.contains '.' || p.contains '('

/-- First suffix of the token list starting at a token that is not the
`???` sentinel and contains a dot or parenthesis (the `for i, part in
enumerate(parts)` loop with its `break`). -/
def findHostStart : List (List Char) → Option (List (List Char))
  | [] => none
  | p :: ps =>
    if p ≠ "???".data ∧ hasDotOrParen p then some (p :: ps) else findHostStart ps

/-- Hostname/IP disambiguation of `MTRParser._parse_hop_line` (source
lines 117-155) applied to the stripped host group: returns
(hostname_final, ip_address). -/
def processHostname (raw : List Char) : List Char × List Char :=
  if isSubstr ("???".data) raw then
    match findHostStart (pySplitWs raw) with
    | some parts =>
      let hwip := joinSpace parts
      match ipParenSearch hwip with
      | some ip =>
        let h := pyStrip (removeAll ('(' :: (ip ++ [')'])) hwip)
        if h.isEmpty then ("AS???".data, "AS???".data) else (h, ip)
      | none => (hwip, hwip)
    | none => ("AS???".data, "AS???".data)
  else
    match ipParenSearch raw with
    | some ip => (pyStrip (removeAll ('(' :: (ip ++ [')'])) raw), ip)
    | none => (raw, raw)

/-- Header/noise pre-check of `MTRParser._parse_hop_line`: lines holding
`HOST:` or `Loss%`, starting (stripped) with `Start`, or blank, yield no
hop. -/
def mtrPreSkip (line : List Char) : Bool :=
  isSubstr ("HOST:".data) line || isSubstr ("Loss%".data) line ||
    "Start".data.isPrefixOf (pyStrip line) || (pyStrip line).isEmpty

/-- A token counted as a time by the fallback:
`'.' in part and part.replace('.','').isdigit()`, whose `float()` then
succeeds (a second dot raises `ValueError`, caught and skipped). -/
def fallbackTimeOf (p : List Char) : Option ℚ :=
  if p.contains '.' && !(p.filter (fun c => c ≠ '.')).isEmpty
      && (p.filter (fun c => c ≠ '.')).all isDigitC then
    floatOfDigitDot? p
  else none

/-- Fallback loss extraction: the first `%`-bearing token whose text with
all `%` removed parses as a float (possibly nan or ±inf); tokens whose
`float()` raises are skipped (`except ValueError: continue`). -/
def fallbackLoss : List (List Char) → PyFloat
  | [] => PyFloat.finite 0
  | p :: ps =>
    if p.contains '%' then
      match pyFloat? (p.filter (fun c => c ≠ '%')) with
      | some v => v
      | none => fallbackLoss ps
    else fallbackLoss ps

/-- Python `min` of a list with a default for the empty case. -/
def listMinD : List ℚ → ℚ → ℚ
  | [], d => d
  | x :: xs, _ => xs.foldl min x

/-- Python `max` of a list with a default for the empty case. -/
def listMaxD : List ℚ → ℚ → ℚ
  | [], d => d
  | x :: xs, _ => xs.foldl max x

/-- `MTRParser._parse_hop_line_fallback`: lenient parse for lines that do
not fit the anchored pattern. -/
def MTRParser.parseHopLineFallback (line : List Char) : Option MTRHop :=
  let parts := pySplitWs line
  if parts.length < 3 then none
  else
    let p0 := parts.headD []
    let ds := p0.takeWhile isDigitC
    if ds.isEmpty then none
    else
      let hostname := parts.getD 1 ("???".data)
      let times := parts.filterMap fallbackTimeOf
      some
        { hop_number := digitsToNat ds
          hostname := String.mk hostname
          ip_address := String.mk hostname
          loss_percent := fallbackLoss parts
          sent_packets := 10
          last_time := (times.getLast?).getD 0
          avg_time := if times.isEmpty then 0 else times.sum / times.length
          best_time := listMinD times 0
          worst_time := listMaxD times 0
          std_dev := 0 }

/-- Body of `MTRParser._parse_hop_line` inside its `try`: the only
operations that can raise are the seven `float()`/`int()` conversions of
the matched numeric groups (conversion happens before hostname
processing, in source order). -/
def mtrHopBody (line : List Char) : Except String (Option MTRHop) := do
  if mtrPreSkip line then Except.ok none
  else
    match mtrMainMatch line with
    | some (hopn, hostRaw, t) => do
      let loss ← floatE t.loss
      let lastT ← floatE t.lastT
      let avgT ← floatE t.avgT
      let bestT ← floatE t.bestT
      let wrstT ← floatE t.wrstT
      let stdevT ← floatE t.stdevT
      let (hn, ip) := processHostname (pyStrip hostRaw)
      Except.ok (some
        { hop_number := hopn
          hostname := String.mk hn
          ip_address := String.mk ip
          loss_percent := PyFloat.finite loss
          sent_packets := digitsToNat t.snt
          last_time := lastT
          avg_time := avgT
          best_time := bestT
          worst_time := wrstT
          std_dev := stdevT })
    | none => Except.ok (MTRParser.parseHopLineFallback line)

/-- `MTRParser._parse_hop_line`: its `except Exception: return None`
handler contains every internal error. -/
def MTRParser.parseHopLine (line : List Char) : Option MTRHop :=
  match mtrHopBody line with
  | Except.ok v => v
  | Except.error _ => none

/-- Aggregate loss of `MTRParser.parse` (source lines 41-58): worst single
hop loss under CPython `max` semantics, raised to the mean over hops with
loss above 5 when such hops exist (`if problematic_hops:` is the emptiness
test on that filter; the `> 5` comparison is False for a nan loss, so nan
hops never enter the problematic subset, while a nan reached by `max`
first can propagate into the total). -/
def mtrTotalLoss (hops : List MTRHop) : PyFloat :=
  match hops with
  | [] => PyFloat.finite 0
  | h :: t =>
    if (h :: t).filter (fun hop => PyFloat.lt (PyFloat.finite 5) hop.loss_percent) = [] then
      (t.map MTRHop.loss_percent).foldl PyFloat.pymax h.loss_percent
    else
      PyFloat.pymax ((t.map MTRHop.loss_percent).foldl PyFloat.pymax h.loss_percent)
        (PyFloat.divNat
          (pySum (((h :: t).filter
            (fun hop => PyFloat.lt (PyFloat.finite 5) hop.loss_percent)).map MTRHop.loss_percent))
          ((h :: t).filter
            (fun hop => PyFloat.lt (PyFloat.finite 5) hop.loss_percent)).length)

/-- Mean `avg_time` over hops with `avg_time > 0` (0 when none). -/
def mtrAvgLatency (hops : List MTRHop) : ℚ :=
  let resp := hops.filter (fun h => h.avg_time > 0)
  if resp.isEmpty then 0 else (resp.map MTRHop.avg_time).sum / resp.length

/-- Status decision of `MTRParser.parse` (source lines 60-69); the
loss comparisons follow Python float semantics. -/
def mtrStatus (hops : List MTRHop) (totalLoss : PyFloat) (avgLat : ℚ) : TestStatus :=
  if hops.isEmpty then TestStatus.failed
  else if PyFloat.lt (PyFloat.finite 20) totalLoss then TestStatus.failed
  else if PyFloat.lt (PyFloat.finite 5) totalLoss ∨ avgLat > 200 then TestStatus.warning
  else if hops.any (fun h => PyFloat.lt (PyFloat.finite 10) h.loss_percent) then
    TestStatus.warning
  else TestStatus.success

/-- `MTRParser.parse`.  Its `try` body contains no raising operation that
is not already caught inside `_parse_hop_line`, so the outer handler
(which would force status Failed, loss 100 and an empty hop list) is
never exercised; the body is therefore embedded directly. -/
def MTRParser.parse (output target : String) (now : ℕ) : MTRResult :=
  let hops := (splitLines (pyStrip output.data)).filterMap MTRParser.parseHopLine
  let totalLoss := mtrTotalLoss hops
  let avgLat := mtrAvgLatency hops
  { status := mtrStatus hops totalLoss avgLat
    target := target
    hops := hops
    total_hops := hops.length
    total_loss_percent := totalLoss
    avg_latency := avgLat
    timestamp := now
    raw_output := output }

/-! ## Traceroute parser (src/src/parsers/traceroute_parser.py) -/

/-- `re.search` of `([\d.]+)`: leftmost maximal digits/dots run. -/
def ddSearch : List Char → Option (List Char)
  | [] => none
  | c :: cs =>
    if isDigitDotC c then some ((c :: cs).takeWhile isDigitDotC) else ddSearch cs

/-- Attempt of `([\d.]+)\s*ms` at this position (greedy runs are exact:
shorter alternatives end at characters that cannot start `ms`). -/
def timeMatchAt (cs : List Char) : Option (List Char) :=
  let g := cs.takeWhile isDigitDotC
  if g.isEmpty then none
  else
    if ("ms".data).isPrefixOf ((cs.dropWhile isDigitDotC).dropWhile isPySpace) then some g
    else none

/-- `re.search` of `([\d.]+)\s*ms`. -/
def timeSearch : List Char → Option (List Char)
  | [] => none
  | c :: cs =>
    match timeMatchAt (c :: cs) with
    | some g => some g
    | none => timeSearch cs

/-- Python `str.isdigit()` restricted to ASCII: nonempty and all decimal
digits. -/
def pyIsDigit (cs : List Char) : Bool :=
  !cs.isEmpty && cs.all isDigitC

/-- Body of `TracerouteParser._parse_hop_line` inside its `try`: the one
raising operation is the `float()` of the time group. -/
def trHopBody (line : List Char) : Except String (Option TracerouteHop) := do
  let l := pyStrip line
  if l.isEmpty || ("traceroute".data).isPrefixOf l then Except.ok none
  else
    let parts := pySplitWs l
    if !(pyIsDigit (parts.headD [])) || parts.isEmpty then Except.ok none
    else
      let ip := ddSearch l
      let rt ←
        match timeSearch l with
        | some g =>
          match floatOfDigitDot? g with
          | some q => Except.ok (some q)
          | none => Except.error (floatErrMsg g)
        | none => Except.ok (none : Option ℚ)
      let isTimeout := l.contains '*' && rt.isNone
      Except.ok (some
        { hop_number := digitsToNat (parts.headD [])
          ip_address := match ip with | some g => String.mk g | none => "*"
          response_time := rt.getD 0
          is_timeout := isTimeout })

/-- `TracerouteParser._parse_hop_line` together with its
`except Exception: return None` handler. -/
def TracerouteParser.parseHopLine (line : List Char) : Option TracerouteHop :=
  match trHopBody line with
  | Except.ok v => v
  | Except.error _ => none

/-- Status decision of `TracerouteParser.parse`. -/
def trStatus (hops : List TracerouteHop) : TestStatus :=
  if hops.isEmpty then TestStatus.failed
  else if hops.length > 30 then TestStatus.warning
  else TestStatus.success

/-- `TracerouteParser.parse` (its `try` body has no raising operation not
already contained inside `_parse_hop_line`, so the outer handler is never
exercised). -/
def TracerouteParser.parse (output target : String) (now : ℕ) : TracerouteResult :=
  let hops := (splitLines (pyStrip output.data)).filterMap TracerouteParser.parseHopLine
  { status := trStatus hops
    target := target
    hops := hops
    total_hops := hops.length
    timestamp := now
    raw_output := output }

/-! ## Result aggregation (src/src/models/test_results.py) -/

/-- `TestSummary.success_rate`: fraction `successful_tests/total_tests`
(0 on an empty run).  Note the value lies in `[0, 1]`, not in `[0, 100]`. -/
def TestSummary.success_rate (s : TestSummary) : ℚ :=
  if s.total_tests = 0 then 0 else (s.successful_tests : ℚ) / (s.total_tests : ℚ)

/-- `TestSummary.overall_status`: banded classification of
`success_rate` against the thresholds 90 / 70 / 50 as written in the
source. -/
def TestSummary.overall_status (s : TestSummary) : String :=
  if s.success_rate ≥ 90 then "excellent"
  else if s.success_rate ≥ 70 then "good"
  else if s.success_rate ≥ 50 then "fair"
  else "poor"

/-- The accumulation loop of `TestResults.summary`: successful / warning /
failed counts, total latency and latency count, driven solely by each
test's ping result (a missing ping result counts as failed). -/
def summaryCounts : List NetworkTest → ℕ × ℕ × ℕ × ℚ × ℕ
  | [] => (0, 0, 0, 0, 0)
  | t :: ts =>
    let (s, w, f, tl, lc) := summaryCounts ts
    match t.ping_result with
    | some p =>
      match p.status with
      | TestStatus.success => (s + 1, w, f, tl + p.avg_time, lc + 1)
      | TestStatus.warning => (s, w + 1, f, tl, lc)
      | TestStatus.failed => (s, w, f + 1, tl, lc)
    | none => (s, w, f + 1, tl, lc)

/-- `TestResults.summary` (the reachable code of the property: everything
after its `return` statement is dead). -/
def TestResults.summary (r : TestResults) : TestSummary :=
  let (s, w, f, tl, lc) := summaryCounts r.tests
  { total_tests := r.tests.length
    successful_tests := s
    failed_tests := f
    warning_tests := w
    average_latency := if lc = 0 then 0 else tl / (lc : ℚ)
    total_packet_loss := 0
    execution_time := 0 }

/-! ## Specification-side definitions and concrete fixtures -/

/-- Status policy exactly as the specification words it for ping: Failed
when no statistics line matched and no RTT was measured; else Failed at
loss 100; else Warning above 50; else Success.  (The source instead tests
`packets_sent == 0 and avg_time == 0`; this definition exists to be
compared against the code.) -/
def specPingStatusPolicy (statsMatched rttMatched : Bool) (loss : ℚ) : TestStatus :=
  if !statsMatched && !rttMatched then TestStatus.failed
  else if loss = 100 then TestStatus.failed
  else if loss > 50 then TestStatus.warning
  else TestStatus.success

/-- A result with its timestamp field replaced (for stating which fields
depend on the clock). -/
def PingResult.atTime (r : PingResult) (n : ℕ) : PingResult :=
  { r with timestamp := n }

/-- A result with its timestamp field replaced. -/
def MTRResult.atTime (r : MTRResult) (n : ℕ) : MTRResult :=
  { r with timestamp := n }

/-- A result with its timestamp field replaced. -/
def TracerouteResult.atTime (r : TracerouteResult) (n : ℕ) : TracerouteResult :=
  { r with timestamp := n }

/-- A test whose ping result exists and has status Success. -/
def pingSuccessful (t : NetworkTest) : Bool :=
  match t.ping_result with
  | some p => p.status = TestStatus.success
  | none => false

/-- A test whose ping result exists and has status Warning. -/
def pingWarning (t : NetworkTest) : Bool :=
  match t.ping_result with
  | some p => p.status = TestStatus.warning
  | none => false

/-- A test whose ping result is absent or has status Failed. -/
def pingMissingOrFailed (t : NetworkTest) : Bool :=
  match t.ping_result with
  | some p => p.status = TestStatus.failed
  | none => true

/-- A fully successful concrete ping result. -/
def pingSuccessExample : PingResult :=
  { status := TestStatus.success
    target := "8.8.8.8"
    packets_sent := 4
    packets_received := 4
    packet_loss_percent := 0
    min_time := 1
    avg_time := 2
    max_time := 3
    mdev_time := 0
    timestamp := 0
    raw_output := "ok" }

/-- A one-test run in which every ping succeeded. -/
def allSuccessRun : TestResults :=
  ⟨0, [{ target := "8.8.8.8", timestamp := 0, ping_result := some pingSuccessExample }]⟩

/-! ## Helper lemmas -/

theorem PyFloat.lt_imp_le {a b : PyFloat} (h : PyFloat.lt a b = true) :
    PyFloat.le a b = true := by
  cases a <;> cases b <;> simp_all [PyFloat.lt, PyFloat.le] <;> linarith

theorem PyFloat.leRefl {a : PyFloat} (h : PyFloat.isNan a = false) : PyFloat.le a a = true := by
  cases a <;> simp_all [PyFloat.isNan, PyFloat.le]

theorem PyFloat.leTotal {a b : PyFloat} (ha : PyFloat.isNan a = false)
    (hb : PyFloat.isNan b = false) (h : PyFloat.lt a b = false) : PyFloat.le b a = true := by
  cases a <;> cases b <;> simp_all [PyFloat.isNan, PyFloat.lt, PyFloat.le] <;> linarith

theorem PyFloat.leTrans {a b c : PyFloat} (h1 : PyFloat.le a b = true)
    (h2 : PyFloat.le b c = true) : PyFloat.le a c = true := by
  cases a <;> cases b <;> cases c <;> simp_all [PyFloat.le] <;> linarith

theorem PyFloat.pymaxNotNan {a b : PyFloat} (ha : PyFloat.isNan a = false)
    (hb : PyFloat.isNan b = false) : PyFloat.isNan (PyFloat.pymax a b) = false := by
  unfold PyFloat.pymax
  split
  · exact hb
  · exact ha

theorem PyFloat.lePymaxLeft {a b : PyFloat} (ha : PyFloat.isNan a = false) :
    PyFloat.le a (PyFloat.pymax a b) = true := by
  unfold PyFloat.pymax
  split
  · exact PyFloat.lt_imp_le (by assumption)
  · exact PyFloat.leRefl ha

theorem PyFloat.lePymaxRight {a b : PyFloat} (ha : PyFloat.isNan a = false)
    (hb : PyFloat.isNan b = false) : PyFloat.le b (PyFloat.pymax a b) = true := by
  unfold PyFloat.pymax
  split
  · exact PyFloat.leRefl hb
  · rename_i h
    exact PyFloat.leTotal ha hb (by simpa using h)

theorem pyle_foldl (l : List PyFloat) : ∀ (a : PyFloat), PyFloat.isNan a = false →
    (∀ x ∈ l, PyFloat.isNan x = false) →
    PyFloat.le a (l.foldl PyFloat.pymax a) = true := by
  induction l with
  | nil => intro a ha _; exact PyFloat.leRefl ha
  | cons x xs ih =>
    intro a ha hl
    rw [List.foldl_cons]
    have hx : PyFloat.isNan x = false := hl x (List.mem_cons_self x xs)
    exact PyFloat.leTrans (PyFloat.lePymaxLeft ha)
      (ih (PyFloat.pymax a x) (PyFloat.pymaxNotNan ha hx)
        (fun y hy => hl y (List.mem_cons_of_mem x hy)))

theorem pymem_le_foldl (l : List PyFloat) : ∀ (a b : PyFloat), PyFloat.isNan a = false →
    (∀ x ∈ l, PyFloat.isNan x = false) → b ∈ l →
    PyFloat.le b (l.foldl PyFloat.pymax a) = true := by
  induction l with
  | nil => intro a b _ _ hb; cases hb
  | cons x xs ih =>
    intro a b ha hl hb
    rw [List.foldl_cons]
    have hx : PyFloat.isNan x = false := hl x (List.mem_cons_self x xs)
    have hxs : ∀ y ∈ xs, PyFloat.isNan y = false :=
      fun y hy => hl y (List.mem_cons_of_mem x hy)
    rcases List.mem_cons.mp hb with rfl | hmem
    · exact PyFloat.leTrans (PyFloat.lePymaxRight ha hx)
        (pyle_foldl xs (PyFloat.pymax a b) (PyFloat.pymaxNotNan ha hx) hxs)
    · exact ih (PyFloat.pymax a x) b (PyFloat.pymaxNotNan ha hx) hxs hmem

theorem pyfoldl_attained (l : List PyFloat) : ∀ (a : PyFloat),
    l.foldl PyFloat.pymax a = a ∨ l.foldl PyFloat.pymax a ∈ l := by
  induction l with
  | nil => intro a; left; rfl
  | cons x xs ih =>
    intro a
    rw [List.foldl_cons]
    rcases ih (PyFloat.pymax a x) with h | h
    · rw [h]
      unfold PyFloat.pymax
      split
      · right; exact List.mem_cons_self x xs
      · left; rfl
    · right; exact List.mem_cons_of_mem x h

theorem pyfoldl_notNan (l : List PyFloat) (a : PyFloat) (ha : PyFloat.isNan a = false)
    (hl : ∀ x ∈ l, PyFloat.isNan x = false) :
    PyFloat.isNan (l.foldl PyFloat.pymax a) = false := by
  rcases pyfoldl_attained l a with h | h
  · rw [h]; exact ha
  · exact hl _ h

/-- The aggregate-loss rule on hop lists without a nan loss: it is an
upper bound (in Python float order) of every hop's loss, and it equals
either the (attained) worst hop loss or the CPython max of that and the
mean over the problematic subset, depending on whether that subset is
empty. -/
theorem mtrTotalLoss_spec (hops : List MTRHop) (hne : hops ≠ [])
    (hnn : ∀ hop ∈ hops, PyFloat.isNan hop.loss_percent = false) :
    (∀ hop ∈ hops, PyFloat.le hop.loss_percent (mtrTotalLoss hops) = true) ∧
    ∃ worst ∈ hops,
      (∀ hop ∈ hops, PyFloat.le hop.loss_percent worst.loss_percent = true) ∧
      mtrTotalLoss hops =
        (if hops.filter (fun hop => PyFloat.lt (PyFloat.finite 5) hop.loss_percent) = [] then
          worst.loss_percent
         else
          PyFloat.pymax worst.loss_percent
            (PyFloat.divNat
              (pySum ((hops.filter
                (fun hop => PyFloat.lt (PyFloat.finite 5) hop.loss_percent)).map
                  MTRHop.loss_percent))
              (hops.filter
                (fun hop => PyFloat.lt (PyFloat.finite 5) hop.loss_percent)).length)) := by
  match hops with
  | [] => exact absurd rfl hne
  | h :: t =>
    have hh : PyFloat.isNan h.loss_percent = false := hnn h (List.mem_cons_self h t)
    have htl : ∀ x ∈ t.map MTRHop.loss_percent, PyFloat.isNan x = false := by
      intro x hx
      rcases List.mem_map.mp hx with ⟨k, hk, hk2⟩
      rw [← hk2]
      exact hnn k (List.mem_cons_of_mem h hk)
    have ub : ∀ hop ∈ h :: t,
        PyFloat.le hop.loss_percent
          ((t.map MTRHop.loss_percent).foldl PyFloat.pymax h.loss_percent) = true := by
      intro hop hm
      rcases List.mem_cons.mp hm with h1 | h1
      · rw [h1]; exact pyle_foldl _ _ hh htl
      · exact pymem_le_foldl _ _ _ hh htl (List.mem_map_of_mem _ h1)
    have hmaxnn : PyFloat.isNan
        ((t.map MTRHop.loss_percent).foldl PyFloat.pymax h.loss_percent) = false :=
      pyfoldl_notNan _ _ hh htl
    have hred : mtrTotalLoss (h :: t) =
        (if (h :: t).filter (fun hop => PyFloat.lt (PyFloat.finite 5) hop.loss_percent) = []
          then (t.map MTRHop.loss_percent).foldl PyFloat.pymax h.loss_percent
         else
          PyFloat.pymax ((t.map MTRHop.loss_percent).foldl PyFloat.pymax h.loss_percent)
            (PyFloat.divNat
              (pySum (((h :: t).filter
                (fun hop => PyFloat.lt (PyFloat.finite 5) hop.loss_percent)).map
                  MTRHop.loss_percent))
              ((h :: t).filter
                (fun hop => PyFloat.lt (PyFloat.finite 5) hop.loss_percent)).length)) := rfl
    have total_upper : ∀ hop ∈ h :: t,
        PyFloat.le hop.loss_percent (mtrTotalLoss (h :: t)) = true := by
      intro hop hm
      rw [hred]
      split
      · exact ub hop hm
      · exact PyFloat.leTrans (ub hop hm) (PyFloat.lePymaxLeft hmaxnn)
    refine ⟨total_upper, ?_⟩
    have hworst : ∃ worst ∈ h :: t,
        worst.loss_percent = (t.map MTRHop.loss_percent).foldl PyFloat.pymax h.loss_percent := by
      rcases pyfoldl_attained (t.map MTRHop.loss_percent) h.loss_percent with h1 | h1
      · exact ⟨h, List.mem_cons_self h t, h1.symm⟩
      · rcases List.mem_map.mp h1 with ⟨k, hk, hk2⟩
        exact ⟨k, List.mem_cons_of_mem h hk, hk2⟩
    rcases hworst with ⟨worst, hwmem, hweq⟩
    refine ⟨worst, hwmem, ?_, ?_⟩
    · intro hop hm; rw [hweq]; exact ub hop hm
    · rw [hred]
      split
      · rw [hweq]
      · rw [hweq]

/-! ## Claim theorems -/

/-- C1 (amended): when no hop's loss is nan — possible only through the
lenient fallback, whose `float()` accepts tokens like `nan%` —
`total_loss_percent` is an upper bound (in Python float order) of every
hop's `loss_percent`, equal to the attained worst hop loss when no hop has
loss above 5 and to the CPython max of that worst loss and the
problematic-subset mean otherwise; with a nan loss the comparison
`total_loss_percent >= loss_percent` is False (nan propagates, see the
counterexample). -/
theorem C1_total_loss_dominates_nonnan_hops (output target : String) (now : ℕ)
    (hne : (MTRParser.parse output target now).hops ≠ [])
    (hnn : ∀ hop ∈ (MTRParser.parse output target now).hops,
      PyFloat.isNan hop.loss_percent = false) :
    (∀ hop ∈ (MTRParser.parse output target now).hops,
      PyFloat.le hop.loss_percent (MTRParser.parse output target now).total_loss_percent
        = true) ∧
    ∃ worst ∈ (MTRParser.parse output target now).hops,
      (∀ hop ∈ (MTRParser.parse output target now).hops,
        PyFloat.le hop.loss_percent worst.loss_percent = true) ∧
      (MTRParser.parse output target now).total_loss_percent =
        (if (MTRParser.parse output target now).hops.filter
              (fun hop => PyFloat.lt (PyFloat.finite 5) hop.loss_percent) = [] then
          worst.loss_percent
         else
          PyFloat.pymax worst.loss_percent
            (PyFloat.divNat
              (pySum (((MTRParser.parse output target now).hops.filter
                (fun hop => PyFloat.lt (PyFloat.finite 5) hop.loss_percent)).map
                  MTRHop.loss_percent))
              ((MTRParser.parse output target now).hops.filter
                (fun hop => PyFloat.lt (PyFloat.finite 5) hop.loss_percent)).length)) := by
  have hto : (MTRParser.parse output target now).total_loss_percent =
      mtrTotalLoss (MTRParser.parse output target now).hops := rfl
  rw [hto]
  exact mtrTotalLoss_spec _ hne hnn

/-- C1 counterexample: on the fallback line `1 x nan%` the single hop has
`loss_percent = nan`, `total_loss_percent` is nan as well, and the claimed
`total_loss_percent >= max(hop.loss_percent)` is False under Python float
comparison. -/
theorem C1_counterexample :
    (MTRParser.parse "1 x nan%" "t" 0).hops.map MTRHop.loss_percent = [PyFloat.nan] ∧
    (MTRParser.parse "1 x nan%" "t" 0).total_loss_percent = PyFloat.nan ∧
    PyFloat.le PyFloat.nan (MTRParser.parse "1 x nan%" "t" 0).total_loss_percent = false := by
  decide

/-- Witness for C1 at a concrete single-hop MTR report with finite loss. -/
theorem C1_witness :
    (MTRParser.parse "1. AS1 a.b 10.0% 10 1.0 1.0 1.0 1.0 0.0" "t" 0).hops ≠ [] ∧
    (∀ hop ∈ (MTRParser.parse "1. AS1 a.b 10.0% 10 1.0 1.0 1.0 1.0 0.0" "t" 0).hops,
      PyFloat.isNan hop.loss_percent = false) ∧
    ∀ hop ∈ (MTRParser.parse "1. AS1 a.b 10.0% 10 1.0 1.0 1.0 1.0 0.0" "t" 0).hops,
      PyFloat.le hop.loss_percent
        (MTRParser.parse "1. AS1 a.b 10.0% 10 1.0 1.0 1.0 1.0 0.0" "t" 0).total_loss_percent
          = true := by
  have hne : (MTRParser.parse "1. AS1 a.b 10.0% 10 1.0 1.0 1.0 1.0 0.0" "t" 0).hops ≠ [] := by
    decide
  have hnn : ∀ hop ∈ (MTRParser.parse "1. AS1 a.b 10.0% 10 1.0 1.0 1.0 1.0 0.0" "t" 0).hops,
      PyFloat.isNan hop.loss_percent = false := by decide
  exact ⟨hne, hnn, (C1_total_loss_dominates_nonnan_hops _ _ _ hne hnn).1⟩

theorem matchLossAt_nonneg (cs : List Char) (q : ℚ) (h : matchLossAt cs = some q) : 0 ≤ q := by
  unfold matchLossAt at h
  dsimp only at h
  split at h
  · cases h
  · split at h
    · split at h
      · obtain rfl := Option.some.inj h
        rw [Rat.mkRat_eq_div]
        positivity
      · cases h
    · split at h
      · obtain rfl := Option.some.inj h
        positivity
      · cases h

theorem lazyScanLoss_nonneg (cs : List Char) (q : ℚ) (h : lazyScanLoss cs = some q) : 0 ≤ q := by
  induction cs with
  | nil => cases h
  | cons c cs ih =>
    cases hm : matchLossAt (c :: cs) with
    | some v =>
      have hred : lazyScanLoss (c :: cs) = some v := by
        rw [lazyScanLoss, hm]
      rw [hred] at h
      obtain rfl := Option.some.inj h
      exact matchLossAt_nonneg _ _ hm
    | none =>
      have hred : lazyScanLoss (c :: cs) = if c = '\n' then none else lazyScanLoss cs := by
        rw [lazyScanLoss, hm]
      rw [hred] at h
      split at h
      · cases h
      · exact ih h

theorem statsMatchAt_nonneg (l1 l2 cs : List Char) (a b : ℕ) (q : ℚ)
    (h : statsMatchAt l1 l2 cs = some (a, b, q)) : 0 ≤ q := by
  unfold statsMatchAt at h
  cases h1 : digGroup cs with
  | none => rw [h1] at h; cases h
  | some p1 =>
    rw [h1] at h
    obtain ⟨d1, r1⟩ := p1
    simp only [Option.bind_eq_bind, Option.some_bind] at h
    split at h
    · cases h2 : digGroup (r1.drop l1.length) with
      | none => rw [h2] at h; cases h
      | some p2 =>
        rw [h2] at h
        obtain ⟨d2, r3⟩ := p2
        simp only [Option.some_bind] at h
        split at h
        · cases h3 : lazyScanLoss (r3.drop l2.length) with
          | none => rw [h3] at h; cases h
          | some v =>
            rw [h3] at h
            simp only [Option.some_bind, Option.some.injEq, Prod.mk.injEq] at h
            obtain ⟨-, -, rfl⟩ := h
            exact lazyScanLoss_nonneg _ _ h3
        · cases h
    · cases h

theorem statsSearch_nonneg (l1 l2 cs : List Char) (a b : ℕ) (q : ℚ)
    (h : statsSearch l1 l2 cs = some (a, b, q)) : 0 ≤ q := by
  induction cs with
  | nil => cases h
  | cons c cs ih =>
    rw [statsSearch] at h
    cases hm : statsMatchAt l1 l2 (c :: cs) with
    | some v =>
      rw [hm] at h
      obtain rfl := Option.some.inj h
      exact statsMatchAt_nonneg _ _ _ _ _ _ hm
    | none =>
      rw [hm] at h
      exact ih h

theorem pingStatsOf_nonneg (output : List Char) : 0 ≤ (pingStatsOf output).2.2 := by
  unfold pingStatsOf
  cases h1 : statsSearch ptLit1 ptLit2 output with
  | some v =>
    obtain ⟨a, b, q⟩ := v
    exact statsSearch_nonneg _ _ _ _ _ _ h1
  | none =>
    cases h2 : statsSearch enLit1 enLit2 output with
    | some w =>
      obtain ⟨a, b, q⟩ := w
      simp only [Option.getD_some]
      exact statsSearch_nonneg _ _ _ _ _ _ h2
    | none => simp

theorem pingParseBody_loss (output : List Char) (c : PingCore)
    (h : pingParseBody output = Except.ok c) :
    c.packet_loss_percent = (pingStatsOf output).2.2 := by
  unfold pingParseBody at h
  cases hr : pingRttOf output with
  | error e => rw [hr] at h; cases h
  | ok quad =>
    rw [hr] at h
    obtain ⟨mn, av, mx, md⟩ := quad
    obtain rfl := Except.ok.inj h
    rfl

theorem floatOfDigitDot?_nonneg (cs : List Char) (q : ℚ) (h : floatOfDigitDot? cs = some q) :
    0 ≤ q := by
  unfold floatOfDigitDot? at h
  dsimp only at h
  split at h
  · split at h
    · obtain rfl := Option.some.inj h
      positivity
    · obtain rfl := Option.some.inj h
      rw [Rat.mkRat_eq_div]
      positivity
  · cases h

theorem floatE_ok_nonneg (tok : List Char) (q : ℚ) (h : floatE tok = Except.ok q) : 0 ≤ q := by
  unfold floatE at h
  cases hf : floatOfDigitDot? tok with
  | some v =>
    rw [hf] at h
    obtain rfl := Except.ok.inj h
    exact floatOfDigitDot?_nonneg _ _ hf
  | none => rw [hf] at h; cases h

/-- The status decision of the ping parser, characterised: `packets_sent =
0 ∧ avg_time = 0` forces Failed; otherwise the three loss bands partition
all loss values. -/
theorem pingStatusOf_spec (ps : ℕ) (avg loss : ℚ) :
    (ps = 0 ∧ avg = 0 → pingStatusOf ps avg loss = TestStatus.failed) ∧
    (¬(ps = 0 ∧ avg = 0) →
      (pingStatusOf ps avg loss = TestStatus.failed ↔ loss = 100) ∧
      (pingStatusOf ps avg loss = TestStatus.warning ↔ (loss ≠ 100 ∧ loss > 50)) ∧
      (pingStatusOf ps avg loss = TestStatus.success ↔ loss ≤ 50)) := by
  unfold pingStatusOf
  split_ifs with h1 h2 h3
  · exact ⟨fun _ => rfl, fun hn => absurd h1 hn⟩
  · refine ⟨fun hc => absurd hc h1, fun _ => ⟨by simp [h2], ?_, ?_⟩⟩
    · simp only [h2]
      constructor
      · intro hh; cases hh
      · rintro ⟨hne, -⟩; exact absurd rfl hne
    · constructor
      · intro hh; cases hh
      · intro hle; rw [h2] at hle; norm_num at hle
  · refine ⟨fun hc => absurd hc h1, fun _ => ⟨?_, ?_, ?_⟩⟩
    · constructor
      · intro hh; cases hh
      · intro hh; exact absurd hh h2
    · exact ⟨fun _ => ⟨h2, h3⟩, fun _ => rfl⟩
    · constructor
      · intro hh; cases hh
      · intro hle; exact absurd h3 (not_lt.mpr hle)
  · refine ⟨fun hc => absurd hc h1, fun _ => ⟨?_, ?_, ?_⟩⟩
    · constructor
      · intro hh; cases hh
      · intro hh; exact absurd hh h2
    · constructor
      · intro hh; cases hh
      · rintro ⟨-, hgt⟩; exact absurd hgt h3
    · exact ⟨fun _ => not_lt.mp h3, fun _ => rfl⟩

/-- C2 (amended): the ping status is decided first by the code's actual
first rule `packets_sent = 0 and avg_time = 0` (not by "no statistics
line matched and no RTT measured", which differs when a matched
statistics line reports 0 packets transmitted); past that rule the three
loss bands partition all loss values: loss 100 is Failed, loss above 50
is Warning, loss at most 50 is Success. -/
theorem C2_status_decision (output target : String) (now : ℕ) :
    ((PingParser.parse output target now).packets_sent = 0 ∧
        (PingParser.parse output target now).avg_time = 0 →
      (PingParser.parse output target now).status = TestStatus.failed) ∧
    (¬((PingParser.parse output target now).packets_sent = 0 ∧
        (PingParser.parse output target now).avg_time = 0) →
      ((PingParser.parse output target now).status = TestStatus.failed ↔
        (PingParser.parse output target now).packet_loss_percent = 100) ∧
      ((PingParser.parse output target now).status = TestStatus.warning ↔
        ((PingParser.parse output target now).packet_loss_percent ≠ 100 ∧
          (PingParser.parse output target now).packet_loss_percent > 50)) ∧
      ((PingParser.parse output target now).status = TestStatus.success ↔
        (PingParser.parse output target now).packet_loss_percent ≤ 50)) := by
  cases hb : pingParseBody output.data with
  | error e =>
    simp [PingParser.parse, hb]
  | ok c =>
    simp only [PingParser.parse, hb]
    exact pingStatusOf_spec _ _ _

/-- C2 counterexample: on the output `0 packets transmitted, 0 received,
0% packet loss` a statistics line does match (with loss 0) and the
claim's first rule does not fire, so the claimed policy yields Success,
but the code returns Failed. -/
theorem C2_counterexample :
    (statsSearch enLit1 enLit2
      ("0 packets transmitted, 0 received, 0% packet loss".data)).isSome = true ∧
    rttSearch ("0 packets transmitted, 0 received, 0% packet loss".data) = none ∧
    (PingParser.parse "0 packets transmitted, 0 received, 0% packet loss" "h" 0).packet_loss_percent
      = 0 ∧
    specPingStatusPolicy true false 0 = TestStatus.success ∧
    (PingParser.parse "0 packets transmitted, 0 received, 0% packet loss" "h" 0).status =
      TestStatus.failed := by
  decide

/-- Witness for C2 at a concrete output with packets sent and loss 25. -/
theorem C2_witness :
    ¬((PingParser.parse "4 packets transmitted, 4 received, 25% packet loss" "h" 0).packets_sent
        = 0 ∧
      (PingParser.parse "4 packets transmitted, 4 received, 25% packet loss" "h" 0).avg_time
        = 0) ∧
    (PingParser.parse "4 packets transmitted, 4 received, 25% packet loss" "h" 0).status =
      TestStatus.success := by
  have hn : ¬((PingParser.parse "4 packets transmitted, 4 received, 25% packet loss" "h"
        0).packets_sent = 0 ∧
      (PingParser.parse "4 packets transmitted, 4 received, 25% packet loss" "h" 0).avg_time
        = 0) := by decide
  exact ⟨hn, ((C2_status_decision _ _ _).2 hn).2.2.mpr (by decide)⟩

/-- C3: each parser is a total function of its input; raw output is
preserved verbatim in every case; a raised error in the ping parse body
yields exactly the forced Failed result (loss 100, error text recorded);
raised errors inside MTR/traceroute hop-line bodies are contained as a
skipped line. -/
theorem C3_parsers_never_raise (output target : String) (now : ℕ) :
    (PingParser.parse output target now).raw_output = output ∧
    (MTRParser.parse output target now).raw_output = output ∧
    (TracerouteParser.parse output target now).raw_output = output ∧
    (∀ e, pingParseBody output.data = Except.error e →
      PingParser.parse output target now =
        { status := TestStatus.failed, target := target, packets_sent := 0,
          packets_received := 0, packet_loss_percent := 100, min_time := 0, avg_time := 0,
          max_time := 0, mdev_time := 0, timestamp := now, raw_output := output,
          error_message := some e }) ∧
    (∀ line e, mtrHopBody line = Except.error e → MTRParser.parseHopLine line = none) ∧
    (∀ line e, trHopBody line = Except.error e → TracerouteParser.parseHopLine line = none) := by
  refine ⟨?_, rfl, rfl, ?_, ?_, ?_⟩
  · cases hb : pingParseBody output.data <;> simp [PingParser.parse, hb]
  · intro e hb
    simp [PingParser.parse, hb]
  · intro line e hb
    simp [MTRParser.parseHopLine, hb]
  · intro line e hb
    simp [TracerouteParser.parseHopLine, hb]

/-- Witness for C3: an RTT quartet with the malformed number `1.2.3`
raises inside the ping parse body, and the returned result is the forced
Failed one. -/
theorem C3_witness :
    pingParseBody ("rtt min/avg/max/mdev = 1.2.3/1.0/1.0/1.0 ms".data) =
      Except.error "could not convert string to float: 1.2.3" ∧
    (PingParser.parse "rtt min/avg/max/mdev = 1.2.3/1.0/1.0/1.0 ms" "h" 5).status =
      TestStatus.failed ∧
    (PingParser.parse "rtt min/avg/max/mdev = 1.2.3/1.0/1.0/1.0 ms" "h" 5).packet_loss_percent
      = 100 ∧
    (PingParser.parse "rtt min/avg/max/mdev = 1.2.3/1.0/1.0/1.0 ms" "h" 5).error_message =
      some "could not convert string to float: 1.2.3" := by
  have hb : pingParseBody ("rtt min/avg/max/mdev = 1.2.3/1.0/1.0/1.0 ms".data) =
      Except.error "could not convert string to float: 1.2.3" := by decide
  have h := (C3_parsers_never_raise "rtt min/avg/max/mdev = 1.2.3/1.0/1.0/1.0 ms" "h" 5).2.2.2.1
    "could not convert string to float: 1.2.3" hb
  exact ⟨hb, by rw [h], by rw [h], by rw [h]⟩

/-- C7 (amended): loss values are taken from the text without clamping
(they can exceed 100, see the counterexample); what does hold is
nonnegativity on the paths whose numbers come from unsigned patterns:
every ping result has `packet_loss_percent ≥ 0`, and every MTR hop built
from the anchored data-line pattern has a finite nonnegative
`loss_percent`. -/
theorem C7_no_clamp_nonneg :
    (∀ (output target : String) (now : ℕ),
      0 ≤ (PingParser.parse output target now).packet_loss_percent) ∧
    (∀ (line : List Char) (hop : MTRHop), (mtrMainMatch line).isSome = true →
      MTRParser.parseHopLine line = some hop →
      ∃ q : ℚ, hop.loss_percent = PyFloat.finite q ∧ 0 ≤ q) := by
  constructor
  · intro output target now
    cases hb : pingParseBody output.data with
    | error e => simp [PingParser.parse, hb]
    | ok c =>
      simp only [PingParser.parse, hb]
      rw [pingParseBody_loss output.data c hb]
      exact pingStatsOf_nonneg output.data
  · intro line hop hsome hparse
    rcases Option.isSome_iff_exists.mp hsome with ⟨⟨hopn, host, t'⟩, hm⟩
    by_cases hps : mtrPreSkip line
    · have hnone : MTRParser.parseHopLine line = none := by
        simp [MTRParser.parseHopLine, mtrHopBody, hps]
      rw [hnone] at hparse; cases hparse
    · cases h1 : floatE t'.loss with
      | error e =>
        have hnone : MTRParser.parseHopLine line = none := by
          simp [MTRParser.parseHopLine, mtrHopBody, hps, hm, h1, Bind.bind, Except.bind]
        rw [hnone] at hparse; cases hparse
      | ok loss =>
        cases h2 : floatE t'.lastT with
        | error e =>
          have hnone : MTRParser.parseHopLine line = none := by
            simp [MTRParser.parseHopLine, mtrHopBody, hps, hm, h1, h2, Bind.bind, Except.bind]
          rw [hnone] at hparse; cases hparse
        | ok v2 =>
          cases h3 : floatE t'.avgT with
          | error e =>
            have hnone : MTRParser.parseHopLine line = none := by
              simp [MTRParser.parseHopLine, mtrHopBody, hps, hm, h1, h2, h3, Bind.bind, Except.bind]
            rw [hnone] at hparse; cases hparse
          | ok v3 =>
            cases h4 : floatE t'.bestT with
            | error e =>
              have hnone : MTRParser.parseHopLine line = none := by
                simp [MTRParser.parseHopLine, mtrHopBody, hps, hm, h1, h2, h3, h4, Bind.bind, Except.bind]
              rw [hnone] at hparse; cases hparse
            | ok v4 =>
              cases h5 : floatE t'.wrstT with
              | error e =>
                have hnone : MTRParser.parseHopLine line = none := by
                  simp [MTRParser.parseHopLine, mtrHopBody, hps, hm, h1, h2, h3, h4, h5, Bind.bind, Except.bind]
                rw [hnone] at hparse; cases hparse
              | ok v5 =>
                cases h6 : floatE t'.stdevT with
                | error e =>
                  have hnone : MTRParser.parseHopLine line = none := by
                    simp [MTRParser.parseHopLine, mtrHopBody, hps, hm, h1, h2, h3, h4, h5, h6, Bind.bind, Except.bind]
                  rw [hnone] at hparse; cases hparse
                | ok v6 =>
                  have hsome2 : MTRParser.parseHopLine line = some
                      { hop_number := hopn
                        hostname := String.mk (processHostname (pyStrip host)).1
                        ip_address := String.mk (processHostname (pyStrip host)).2
                        loss_percent := PyFloat.finite loss
                        sent_packets := digitsToNat t'.snt
                        last_time := v2
                        avg_time := v3
                        best_time := v4
                        worst_time := v5
                        std_dev := v6 } := by
                    simp [MTRParser.parseHopLine, mtrHopBody, hps, hm, h1, h2, h3, h4, h5, h6, Bind.bind, Except.bind]
                  rw [hsome2] at hparse
                  obtain rfl := Option.some.inj hparse
                  exact ⟨loss, rfl, floatE_ok_nonneg _ _ h1⟩
/-- C7 counterexample: a reported loss of 250 percent passes through the
ping parser unclamped. -/
theorem C7_counterexample :
    (PingParser.parse "5 packets transmitted, 0 received, 250% packet loss" "h"
      0).packet_loss_percent = 250 ∧
    ¬((PingParser.parse "5 packets transmitted, 0 received, 250% packet loss" "h"
      0).packet_loss_percent ≤ 100) := by
  decide

/-- Witness for C7 at a concrete ping output and a concrete anchored MTR
data line. -/
theorem C7_witness :
    0 ≤ (PingParser.parse "x" "h" 0).packet_loss_percent ∧
    ∃ q : ℚ,
      (MTRHop.mk 1 "a.b" "a.b" (PyFloat.finite 10) 10 1 1 1 1 0 none).loss_percent =
        PyFloat.finite q ∧ 0 ≤ q := by
  refine ⟨C7_no_clamp_nonneg.1 "x" "h" 0, ?_⟩
  exact C7_no_clamp_nonneg.2 ("1. AS1 a.b 10.0% 10 1.0 1.0 1.0 1.0 0.0".data)
    (MTRHop.mk 1 "a.b" "a.b" (PyFloat.finite 10) 10 1 1 1 1 0 none) (by decide) (by decide)

/-- C9 (amended): each parser is a deterministic function of its string
input on every field except `timestamp`, which records the wall-clock
reading of the run (so two runs at different clock readings differ
exactly there). -/
theorem C9_deterministic_up_to_timestamp (output target : String) (n1 n2 : ℕ) :
    (PingParser.parse output target n1).atTime 0 = (PingParser.parse output target n2).atTime 0 ∧
    (MTRParser.parse output target n1).atTime 0 = (MTRParser.parse output target n2).atTime 0 ∧
    (TracerouteParser.parse output target n1).atTime 0 =
      (TracerouteParser.parse output target n2).atTime 0 ∧
    (PingParser.parse output target n1).timestamp = n1 ∧
    (MTRParser.parse output target n1).timestamp = n1 ∧
    (TracerouteParser.parse output target n1).timestamp = n1 := by
  refine ⟨?_, rfl, rfl, ?_, rfl, rfl⟩
  · cases hb : pingParseBody output.data <;> simp [PingParser.parse, PingResult.atTime, hb]
  · cases hb : pingParseBody output.data <;> simp [PingParser.parse, hb]

/-- C9 counterexample: two parses of the same raw text at different clock
readings are not structurally equal (the timestamp field differs). -/
theorem C9_counterexample :
    PingParser.parse "" "h" 0 ≠ PingParser.parse "" "h" 1 ∧
    (PingParser.parse "" "h" 0).timestamp ≠ (PingParser.parse "" "h" 1).timestamp := by
  decide

theorem findHostStart_eq_none (ps : List (List Char))
    (h : ∀ p ∈ ps, p = "???".data ∨ hasDotOrParen p = false) :
    findHostStart ps = none := by
  induction ps with
  | nil => rfl
  | cons p ps ih =>
    rw [findHostStart]
    rw [if_neg]
    · exact ih fun q hq => h q (List.mem_cons_of_mem p hq)
    · rcases h p (List.mem_cons_self p ps) with h1 | h1
      · intro hc; exact absurd h1 hc.1
      · intro hc; rw [h1] at hc; exact absurd hc.2 (by decide)

/-- C4 (amended): a hop whose raw name field is the unknown-host sentinel
still contributes to loss aggregation (whenever no hop of the run carries
a nan loss, its loss is bounded by `total_loss_percent` like every
hop's), but the exposed hostname is the literal placeholder text `AS???`
— the `MTRHop.hostname` field is a plain string and is never null. -/
theorem C4_sentinel_hostname_is_placeholder :
    (∀ raw, isSubstr ("???".data) raw = true →
      (∀ p ∈ pySplitWs raw, p = "???".data ∨ hasDotOrParen p = false) →
      processHostname raw = ("AS???".data, "AS???".data)) ∧
    (∀ (output target : String) (now : ℕ) (hop : MTRHop),
      hop ∈ (MTRParser.parse output target now).hops →
      (∀ k ∈ (MTRParser.parse output target now).hops,
        PyFloat.isNan k.loss_percent = false) →
      PyFloat.le hop.loss_percent (MTRParser.parse output target now).total_loss_percent
        = true) := by
  constructor
  · intro raw hsub hall
    have hfind : findHostStart (pySplitWs raw) = none := findHostStart_eq_none _ hall
    simp [processHostname, hsub, hfind]
  · intro output target now hop hm hnn
    have hto : (MTRParser.parse output target now).total_loss_percent =
        mtrTotalLoss (MTRParser.parse output target now).hops := rfl
    rw [hto]
    exact (mtrTotalLoss_spec _ (List.ne_nil_of_mem hm) hnn).1 hop hm

/-- C4 counterexample: hops whose name field is the unknown-host sentinel
come out with the literal hostname string `AS???` (through the anchored
pattern as well as through the fallback), never with a null hostname. -/
theorem C4_counterexample :
    (MTRParser.parseHopLine ("2. AS13335 ??? 3% 10 1 1 1 1 0".data)).map MTRHop.hostname =
      some "AS???" ∧
    (MTRParser.parse "3 AS??? ??? 3% 10 1 1 1 1 0" "t" 0).hops.map MTRHop.hostname =
      ["AS???"] ∧
    (MTRParser.parse "3 AS??? ??? 3% 10 1 1 1 1 0" "t" 0).total_loss_percent =
      PyFloat.finite 3 := by
  decide

/-- Witness for C4: the bare sentinel name field maps to the placeholder
pair, and the concrete sentinel hop's loss is counted in the aggregate. -/
theorem C4_witness :
    processHostname ("???".data) = ("AS???".data, "AS???".data) ∧
    PyFloat.le (MTRHop.mk 3 "AS???" "AS???" (PyFloat.finite 3) 10 0 0 0 0 0 none).loss_percent
      (MTRParser.parse "3 AS??? ??? 3% 10 1 1 1 1 0" "t" 0).total_loss_percent = true := by
  constructor
  · exact C4_sentinel_hostname_is_placeholder.1 ("???".data) (by decide) (by decide)
  · exact C4_sentinel_hostname_is_placeholder.2 "3 AS??? ??? 3% 10 1 1 1 1 0" "t" 0
      (MTRHop.mk 3 "AS???" "AS???" (PyFloat.finite 3) 10 0 0 0 0 0 none) (by decide) (by decide)

theorem summaryCounts_spec (ts : List NetworkTest) :
    (summaryCounts ts).1 = ts.countP pingSuccessful ∧
    (summaryCounts ts).2.1 = ts.countP pingWarning ∧
    (summaryCounts ts).2.2.1 = ts.countP pingMissingOrFailed ∧
    (summaryCounts ts).1 + (summaryCounts ts).2.1 + (summaryCounts ts).2.2.1 = ts.length := by
  induction ts with
  | nil => exact ⟨rfl, rfl, rfl, rfl⟩
  | cons t ts ih =>
    obtain ⟨ih1, ih2, ih3, ih4⟩ := ih
    rcases hsc : summaryCounts ts with ⟨s, w, f, tl, lc⟩
    rw [hsc] at ih1 ih2 ih3 ih4
    simp only at ih1 ih2 ih3 ih4
    cases hp : t.ping_result with
    | none =>
      simp only [summaryCounts, hsc, hp, List.countP_cons, List.length_cons,
        pingSuccessful, pingWarning, pingMissingOrFailed]
      simp [ih1, ih2, ih3]
      omega
    | some p =>
      cases hst : p.status <;>
        · simp only [summaryCounts, hsc, hp, hst, List.countP_cons, List.length_cons,
            pingSuccessful, pingWarning, pingMissingOrFailed]
          simp [ih1, ih2, ih3]
          omega

/-- C8: the summary counts every test into exactly one of the
successful/warning/failed buckets, judged solely by its ping result (an
absent ping result counts as failed), and the three buckets add up to
`total_tests`. -/
theorem C8_summary_counts_by_ping (r : TestResults) :
    (TestResults.summary r).total_tests = r.tests.length ∧
    (TestResults.summary r).successful_tests = r.tests.countP pingSuccessful ∧
    (TestResults.summary r).warning_tests = r.tests.countP pingWarning ∧
    (TestResults.summary r).failed_tests = r.tests.countP pingMissingOrFailed ∧
    (TestResults.summary r).total_tests =
      (TestResults.summary r).successful_tests + (TestResults.summary r).warning_tests +
        (TestResults.summary r).failed_tests := by
  have hspec := summaryCounts_spec r.tests
  rcases hsc : summaryCounts r.tests with ⟨s, w, f, tl, lc⟩
  rw [hsc] at hspec
  simp only at hspec
  obtain ⟨h1, h2, h3, h4⟩ := hspec
  simp only [TestResults.summary, hsc]
  exact ⟨trivial, h1, h2, h3, by omega⟩

/-- C6 (code bug): `success_rate` is the fraction successful/total in
`[0, 1]`, but `overall_status` compares it against 90/70/50, so every run
whatsoever is classified `poor` — in particular the one-test all-success
run, which the specification's bands would classify `excellent`. -/
theorem C6_overall_status_always_poor :
    (∀ r : TestResults, (TestResults.summary r).overall_status = "poor") ∧
    (TestResults.summary allSuccessRun).total_tests = 1 ∧
    (TestResults.summary allSuccessRun).successful_tests = 1 ∧
    (TestResults.summary allSuccessRun).success_rate = 1 ∧
    (TestResults.summary allSuccessRun).overall_status = "poor" := by
  have hpoor : ∀ r : TestResults, (TestResults.summary r).overall_status = "poor" := by
    intro r
    have hspec := summaryCounts_spec r.tests
    rcases hsc : summaryCounts r.tests with ⟨s, w, f, tl, lc⟩
    rw [hsc] at hspec
    simp only at hspec
    have hsle : s ≤ r.tests.length := hspec.1 ▸ List.countP_le_length _
    unfold TestSummary.overall_status TestSummary.success_rate
    simp only [TestResults.summary, hsc]
    by_cases hl : r.tests.length = 0
    · simp [hl]
      norm_num
    · have hpos : (0 : ℚ) < (r.tests.length : ℚ) := by
        exact_mod_cast Nat.pos_of_ne_zero hl
      have hrle : (s : ℚ) / (r.tests.length : ℚ) ≤ 1 := by
        rw [div_le_one hpos]
        exact_mod_cast hsle
      rw [if_neg hl, if_neg (by linarith), if_neg (by linarith), if_neg (by linarith)]
  refine ⟨hpoor, by decide, by decide, ?_, hpoor allSuccessRun⟩
  show (TestResults.summary allSuccessRun).success_rate = 1
  have h1 : (TestResults.summary allSuccessRun).total_tests = 1 := by decide
  have h2 : (TestResults.summary allSuccessRun).successful_tests = 1 := by decide
  unfold TestSummary.success_rate
  rw [h1, h2]
  norm_num

/-- C10: any line with at least three whitespace-separated fields whose
first field starts with a digit is accepted by the lenient MTR fallback
(reached exactly when the line is not header noise and the anchored
pattern fails), producing a hop with `sent_packets = 10`, `std_dev = 0`,
hostname taken verbatim from the second field, and last/avg/best/worst
times computed from the decimal-looking fields anywhere in the line. -/
theorem C10_fallback_lenient (line : List Char)
    (hlen : 3 ≤ (pySplitWs line).length)
    (hdig : ((pySplitWs line).headD []).takeWhile isDigitC ≠ []) :
    (¬mtrPreSkip line = true → mtrMainMatch line = none →
      MTRParser.parseHopLine line = MTRParser.parseHopLineFallback line) ∧
    ∃ hop, MTRParser.parseHopLineFallback line = some hop ∧
      hop.sent_packets = 10 ∧ hop.std_dev = 0 ∧
      hop.hop_number = digitsToNat (((pySplitWs line).headD []).takeWhile isDigitC) ∧
      hop.hostname = String.mk ((pySplitWs line).getD 1 ("???".data)) ∧
      hop.loss_percent = fallbackLoss (pySplitWs line) ∧
      hop.avg_time = (if ((pySplitWs line).filterMap fallbackTimeOf).isEmpty then 0
        else ((pySplitWs line).filterMap fallbackTimeOf).sum /
          ((((pySplitWs line).filterMap fallbackTimeOf).length : ℕ) : ℚ)) ∧
      hop.best_time = listMinD ((pySplitWs line).filterMap fallbackTimeOf) 0 ∧
      hop.worst_time = listMaxD ((pySplitWs line).filterMap fallbackTimeOf) 0 ∧
      hop.last_time = (((pySplitWs line).filterMap fallbackTimeOf).getLast?).getD 0 := by
  constructor
  · intro hps hmm2
    simp [MTRParser.parseHopLine, mtrHopBody, hps, hmm2]
  · unfold MTRParser.parseHopLineFallback
    dsimp only
    rw [if_neg (by omega : ¬(pySplitWs line).length < 3),
      if_neg (by simpa [List.isEmpty_iff] using hdig)]
    exact ⟨_, rfl, rfl, rfl, rfl, rfl, rfl, rfl, rfl, rfl, rfl⟩

/-- Witness for C10 at a concrete three-field line. -/
theorem C10_witness :
    MTRParser.parseHopLine ("99 somewhere x".data) =
      MTRParser.parseHopLineFallback ("99 somewhere x".data) ∧
    ∃ hop, MTRParser.parseHopLineFallback ("99 somewhere x".data) = some hop ∧
      hop.sent_packets = 10 ∧ hop.std_dev = 0 := by
  have h := C10_fallback_lenient ("99 somewhere x".data) (by decide) (by decide)
  refine ⟨h.1 (by decide) (by decide), ?_⟩
  obtain ⟨hop, h1, h2, h3, -⟩ := h.2
  exact ⟨hop, h1, h2, h3⟩

theorem dropWhile_head_false {p : Char → Bool} (cs : List Char) (c : Char) (rest : List Char)
    (h : cs.dropWhile p = c :: rest) : p c = false := by
  induction cs with
  | nil => cases h
  | cons x xs ih =>
    rw [List.dropWhile_cons] at h
    by_cases hx : p x
    · rw [if_pos hx] at h; exact ih h
    · rw [if_neg hx] at h
      obtain ⟨rfl, -⟩ := List.cons.inj h
      simpa using hx

theorem pyStrip_isPrefix (cs : List Char) : pyStrip cs <+: cs.dropWhile isPySpace := by
  unfold pyStrip
  have h2 : ((cs.dropWhile isPySpace).reverse.dropWhile isPySpace).reverse.reverse <:+
      (cs.dropWhile isPySpace).reverse := by
    rw [List.reverse_reverse]
    exact List.dropWhile_suffix _
  exact List.reverse_suffix.mp h2

theorem pyStrip_head_not_space (cs : List Char) (c : Char) (rest : List Char)
    (h : pyStrip cs = c :: rest) : isPySpace c = false := by
  obtain ⟨t, ht⟩ := pyStrip_isPrefix cs
  rw [h] at ht
  exact dropWhile_head_false cs c (rest ++ t) ht.symm

theorem space_not_digitdot (c : Char) (h : isPySpace c = true) : isDigitDotC c = false := by
  simp only [isPySpace, Bool.or_eq_true, decide_eq_true_eq] at h
  rcases h with ((((h | h) | h) | h) | h) | h <;> rw [h] <;> decide

theorem takeWhile_nonspace_digits (l : List Char)
    (h : (l.takeWhile (fun d => !isPySpace d)).all isDigitC = true) :
    l.takeWhile isDigitDotC = l.takeWhile (fun d => !isPySpace d) := by
  induction l with
  | nil => rfl
  | cons c cs ih =>
    by_cases hc : isPySpace c
    · have h1 : (!isPySpace c) = false := by simp [hc]
      have h2 : isDigitDotC c = false := space_not_digitdot c (by simpa using hc)
      simp only [List.takeWhile_cons, h1, h2]
      rfl
    · have h1 : (!isPySpace c) = true := by simp [hc]
      rw [List.takeWhile_cons, if_pos h1, List.all_cons, Bool.and_eq_true] at h
      have h2 : isDigitDotC c = true := by simp [isDigitDotC, h.1]
      rw [List.takeWhile_cons, if_pos h2, List.takeWhile_cons, if_pos h1, ih h.2]

theorem pySplitWs_head_eq (c : Char) (cs : List Char) (h : isPySpace c = false) :
    (pySplitWs (c :: cs)).headD [] = (c :: cs).takeWhile (fun d => !isPySpace d) := by
  simp [pySplitWs, pySplitWsFuel, h]

/-- C5 (amended): in a qualifying traceroute hop line, `ip_address` is the
first digits-and-dots run of the stripped line, which is the (all-digit)
hop-number token itself — not the first dotted-quad IPv4 address of the
line; `response_time` is the number of the first `<number> ms` occurrence
when present (a line whose first such number is not a valid float yields
no hop at all), and 0 otherwise. -/
theorem C5_ip_is_hop_number_token (line : List Char) (hop : TracerouteHop)
    (hparse : TracerouteParser.parseHopLine line = some hop) :
    (hop.ip_address = String.mk ((pyStrip line).takeWhile isDigitDotC) ∧
      ((pyStrip line).takeWhile isDigitDotC).all isDigitC = true ∧
      (pyStrip line).takeWhile isDigitDotC ≠ []) ∧
    (∀ g, timeSearch (pyStrip line) = some g → floatOfDigitDot? g = some hop.response_time) ∧
    (timeSearch (pyStrip line) = none → hop.response_time = 0) := by
  unfold TracerouteParser.parseHopLine at hparse
  cases hb : trHopBody line with
  | error e => rw [hb] at hparse; cases hparse
  | ok v =>
    rw [hb] at hparse
    subst hparse
    unfold trHopBody at hb
    dsimp only at hb
    split at hb
    · exact absurd (Except.ok.inj hb) (by simp)
    · split at hb
      · exact absurd (Except.ok.inj hb) (by simp)
      · rename_i h1 h2
        simp only [Bool.or_eq_true, not_or, Bool.not_eq_true', Bool.not_eq_true] at h2
        have hd : pyIsDigit ((pySplitWs (pyStrip line)).headD []) = true := by
          simpa using h2.1
        rcases hpl : pyStrip line with _ | ⟨c, rest⟩
        · rw [hpl] at h1; exact absurd (by simp) h1
        · have hc : isPySpace c = false := pyStrip_head_not_space line c rest hpl
          rw [hpl] at hd hb
          rw [pySplitWs_head_eq c rest hc] at hd
          unfold pyIsDigit at hd
          rw [Bool.and_eq_true] at hd
          have hdig : ((c :: rest).takeWhile (fun d => !isPySpace d)).all isDigitC = true :=
            hd.2
          have hne : ((c :: rest).takeWhile (fun d => !isPySpace d)).isEmpty = false := by
            simpa using hd.1
          have htw := takeWhile_nonspace_digits (c :: rest) hdig
          have hcc : (c :: rest).takeWhile (fun d => !isPySpace d) =
              c :: rest.takeWhile (fun d => !isPySpace d) := by
            rw [List.takeWhile_cons, if_pos (by simp [hc])]
          have hcd : isDigitC c = true := by
            rw [hcc, List.all_cons, Bool.and_eq_true] at hdig
            exact hdig.1
          have hdds : ddSearch (c :: rest) = some ((c :: rest).takeWhile isDigitDotC) := by
            rw [ddSearch, if_pos (by simp [isDigitDotC, hcd])]
          cases hts : timeSearch (c :: rest) with
          | some g =>
            cases hf : floatOfDigitDot? g with
            | some q =>
              simp only [hts, hf, Bind.bind, Except.bind] at hb
              obtain rfl := Option.some.inj (Except.ok.inj hb)
              refine ⟨⟨?_, ?_, ?_⟩, ?_, ?_⟩
              · dsimp only
                rw [hdds]
              · rw [htw]
                exact hdig
              · rw [htw]
                intro hcon
                rw [hcon] at hne
                cases hne
              · intro g2 hts2
                obtain rfl := Option.some.inj hts2
                dsimp only
                rw [hf]
                rfl
              · intro h0
                cases h0
            | none =>
              simp only [hts, hf, Bind.bind, Except.bind] at hb
              cases hb
          | none =>
            simp only [hts, Bind.bind, Except.bind] at hb
            obtain rfl := Option.some.inj (Except.ok.inj hb)
            refine ⟨⟨?_, ?_, ?_⟩, ?_, ?_⟩
            · dsimp only
              rw [hdds]
            · rw [htw]
              exact hdig
            · rw [htw]
              intro hcon
              rw [hcon] at hne
              cases hne
            · intro g2 hts2
              cases hts2
            · intro h0
              rfl

/-- C5 counterexample: on `1 host (8.8.8.8) 2.5 ms` the extracted
ip_address is `1` (the hop-number token matched by the loose `([\d.]+)`
pattern), not the dotted-quad `8.8.8.8` present in the line. -/
theorem C5_counterexample :
    (TracerouteParser.parseHopLine ("1 host (8.8.8.8) 2.5 ms".data)).map
      TracerouteHop.ip_address = some "1" ∧
    isSubstr ("8.8.8.8".data) ("1 host (8.8.8.8) 2.5 ms".data) = true ∧
    (TracerouteParser.parseHopLine ("1 host (8.8.8.8) 2.5 ms".data)).map
      TracerouteHop.ip_address ≠ some "8.8.8.8" ∧
    (TracerouteParser.parseHopLine ("1 host (8.8.8.8) 2.5 ms".data)).map
      TracerouteHop.response_time = some (mkRat 25 10) := by
  decide

/-- Witness for C5 at the same concrete hop line. -/
theorem C5_witness :
    TracerouteParser.parseHopLine ("1 host (8.8.8.8) 2.5 ms".data) =
      some (TracerouteHop.mk 1 "1" (mkRat 25 10) false) ∧
    (TracerouteHop.mk 1 "1" (mkRat 25 10) false).ip_address =
      String.mk ((pyStrip ("1 host (8.8.8.8) 2.5 ms".data)).takeWhile isDigitDotC) ∧
    ((pyStrip ("1 host (8.8.8.8) 2.5 ms".data)).takeWhile isDigitDotC).all isDigitC = true := by
  have hp : TracerouteParser.parseHopLine ("1 host (8.8.8.8) 2.5 ms".data) =
      some (TracerouteHop.mk 1 "1" (mkRat 25 10) false) := by decide
  have h := C5_ip_is_hop_number_token ("1 host (8.8.8.8) 2.5 ms".data) _ hp
  exact ⟨hp, h.1.1, h.1.2.1⟩
